import Mathlib

/-!
Verification of the crossy-road world-simulation engine.

The Python sources (src/crossy/{config,terrain,obstacles,player,game}.py)
are shallowly embedded below: floats become rationals, classes become
structures, and every call into the random module becomes an explicit
draw from an injected random source threaded through the computation,
matching the contract of the corresponding random-module primitive
(randint stays in range, random() stays in [0,1), and so on).
-/

namespace Crossy

/-! ### Random source

Model of the random-module primitives used by the engine.  Draws are
taken from two ambient streams (one for integer draws, one for real
draws) indexed by a cursor that advances by one at every draw, so a
fixed pair of streams determines the whole run.  Each primitive
guarantees the range contract of its Python counterpart by
construction. -/

structure RNG where
  nats : Nat → Nat
  rats : Nat → ℚ
  idx : Nat

def RNG.bump (r : RNG) : RNG :=
  ⟨r.nats, r.rats, r.idx + 1⟩

/-- random.random(): a rational in [0,1). -/
def RNG.rand (r : RNG) : ℚ × RNG :=
  (Int.fract (r.rats r.idx), r.bump)

/-- random.randint(lo, hi): an integer in [lo, hi] (when lo ≤ hi). -/
def RNG.randint (r : RNG) (lo hi : ℤ) : ℤ × RNG :=
  (lo + ((r.nats r.idx) % (hi + 1 - lo).toNat : ℕ), r.bump)

/-- random.uniform(a, b): a + (b - a) * random(). -/
def RNG.uniform (r : RNG) (a b : ℚ) : ℚ × RNG :=
  (a + (b - a) * Int.fract (r.rats r.idx), r.bump)

/-- random.choice over a list of integers. -/
def RNG.choiceInt (r : RNG) (l : List ℤ) : ℤ × RNG :=
  (l.getD (r.nats r.idx % l.length) 0, r.bump)

/-- random.choices over three weighted alternatives (returns 0, 1 or 2):
inverse-CDF draw u = random() * total weight against the cumulative weights. -/
def RNG.choices3 (r : RNG) (w1 w2 w3 : ℚ) : Nat × RNG :=
  let u := Int.fract (r.rats r.idx) * (w1 + w2 + w3)
  ((if u < w1 then 0 else if u < w1 + w2 then 1 else 2), r.bump)

/-- Helper for random.sample: draw k distinct elements by repeatedly
picking an index into the remaining pool. -/
def sampleGo : Nat → List ℤ → RNG → List ℤ × RNG
  | 0, _, r => ([], r)
  | Nat.succ k, pool, r =>
    let i := r.nats r.idx % pool.length
    let x := pool.getD i 0
    let (xs, r2) := sampleGo k (pool.eraseIdx i) r.bump
    (x :: xs, r2)

/-- random.sample(range(n), k). -/
def RNG.sampleRange (r : RNG) (n k : Nat) : List ℤ × RNG :=
  sampleGo k ((List.range n).map (fun (i : ℕ) => (i : ℤ))) r

/-! ### config.py constants -/

def GRID_WIDTH : ℤ := 20
def GRID_HEIGHT : ℤ := 15
def TOTAL_ROWS : ℤ := 100
def PLAYER_START_X : ℤ := GRID_WIDTH / 2
def PLAYER_START_Y : ℤ := TOTAL_ROWS - 3
def SCROLL_SPEED : ℚ := 0.5
def CAR_SPEED_MIN : ℚ := 1.0
def CAR_SPEED_MAX : ℚ := 3.0
def LOG_SPEED_MIN : ℚ := 0.5
def LOG_SPEED_MAX : ℚ := 2.0
def TRAIN_SPEED : ℚ := 8.0
def TRAIN_WIDTH : ℚ := 25
def TRAIN_SPAWN_INTERVAL_MIN : ℚ := 5.0
def TRAIN_SPAWN_INTERVAL_MAX : ℚ := 10.0
def TRAIN_WARNING_TIME : ℚ := 2.0

inductive Terrain where
  | grass
  | road
  | river
  | train
deriving DecidableEq, Repr

/-! ### terrain.py -/

structure TerrainRow where
  row_num : ℤ
  terrain_type : Terrain
deriving DecidableEq, Repr

/-- TerrainManager._get_progress / obstacles.get_progress:
progress = clamp(1 - row / (TOTAL_ROWS - 5), 0, 1). -/
def get_progress (row_num : ℚ) : ℚ :=
  let playable_rows : ℚ := (TOTAL_ROWS : ℚ) - 5
  max 0 (min 1 (1 - row_num / playable_rows))

/-- TerrainManager._get_terrain_probabilities, returned in the dict's
insertion order (grass, road, river, train). -/
def get_terrain_probabilities (progress : ℚ) : ℚ × ℚ × ℚ × ℚ :=
  if 0 < progress then
    let river_prob : ℚ :=
      if 0.15 < progress then 0.25 * min 1 ((progress - 0.15) / 0.35) else 0
    let train_prob : ℚ :=
      if 0.35 < progress then 0.10 * min 1 ((progress - 0.35) / 0.40) else 0
    let road_prob : ℚ := 0.50 - 0.15 * progress
    let grass_prob : ℚ := 1 - road_prob - river_prob - train_prob
    (grass_prob, road_prob, river_prob, train_prob)
  else
    (0.50, 0.50, 0, 0)

def grass_prob (p : ℚ) : ℚ := (get_terrain_probabilities p).1
def road_prob (p : ℚ) : ℚ := (get_terrain_probabilities p).2.1
def river_prob (p : ℚ) : ℚ := (get_terrain_probabilities p).2.2.1
def rail_prob (p : ℚ) : ℚ := (get_terrain_probabilities p).2.2.2

/-- TerrainManager._pick_terrain_type: draw roll = random() and walk the
cumulative distribution in the dict's insertion order
(grass, road, river, train); fall back to grass. -/
def pick_terrain_type (r : RNG) (probs : ℚ × ℚ × ℚ × ℚ) : Terrain × RNG :=
  let (roll, r2) := r.rand
  let c1 := probs.1
  let c2 := c1 + probs.2.1
  let c3 := c2 + probs.2.2.1
  let c4 := c3 + probs.2.2.2
  (if roll < c1 then Terrain.grass
   else if roll < c2 then Terrain.road
   else if roll < c3 then Terrain.river
   else if roll < c4 then Terrain.train
   else Terrain.grass, r2)

/-- TerrainManager._get_cluster_size. -/
def get_cluster_size (terrain_type : Terrain) (progress : ℚ) (r : RNG) :
    ℤ × RNG :=
  match terrain_type with
  | Terrain.grass => r.randint 1 2
  | Terrain.road =>
    if progress < 0.3 then (1, r)
    else if progress < 0.6 then r.randint 1 2
    else r.randint 1 3
  | Terrain.river =>
    if progress < 0.3 then (1, r)
    else if progress < 0.6 then r.randint 1 2
    else r.randint 1 3
  | Terrain.train => (1, r)

/-- terrain_type in (TERRAIN_ROAD, TERRAIN_RIVER, TERRAIN_TRAIN). -/
def dangerousT (terrain_type : Terrain) : Bool :=
  match terrain_type with
  | Terrain.road => true
  | Terrain.river => true
  | Terrain.train => true
  | Terrain.grass => false

/-- The rows appended by one cluster-emitting for-loop of
TerrainManager._generate_terrain: for i in range(size), append
TerrainRow(current_row - i, t) when current_row - i >= 0. -/
def clusterRows (current_row size : ℤ) (terrain_type : Terrain) :
    List TerrainRow :=
  (List.range size.toNat).filterMap fun (i : ℕ) =>
    if 0 ≤ current_row - (i : ℤ) then
      some ⟨current_row - (i : ℤ), terrain_type⟩
    else none

/-- One iteration of the while-loop body of
TerrainManager._generate_terrain: pick a terrain type; if both it and
the previous cluster are dangerous, possibly emit a grass break
instead; otherwise emit a cluster of the picked type, clipped at row 0.
Returns (appended rows, new current_row, new last_terrain_type, rng). -/
def genStep (current_row : ℤ) (last_terrain_type : Terrain) (r : RNG) :
    List TerrainRow × ℤ × Terrain × RNG :=
  let progress := get_progress (current_row : ℚ)
  let probs := get_terrain_probabilities progress
  let (terrain_type, r) := pick_terrain_type r probs
  let normal : RNG → List TerrainRow × ℤ × Terrain × RNG := fun r =>
    let (cs, r) := get_cluster_size terrain_type progress r
    let cluster_size := min cs (current_row + 1)
    (clusterRows current_row cluster_size terrain_type,
      current_row - cluster_size, terrain_type, r)
  if dangerousT terrain_type && dangerousT last_terrain_type then
    let grass_break_chance := 1 - 0.5 * progress
    let (roll, r) := r.rand
    if roll < grass_break_chance then
      let (gsz, r) := r.randint 1 2
      let grass_size := min gsz (current_row + 1)
      (clusterRows current_row grass_size Terrain.grass,
        current_row - grass_size, Terrain.grass, r)
    else normal r
  else normal r

/-- The while-loop of TerrainManager._generate_terrain. -/
def genLoop (current_row : ℤ) (last_terrain_type : Terrain)
    (acc : List TerrainRow) (r : RNG) : List TerrainRow × RNG :=
  if h : 0 ≤ current_row then
    match hs : genStep current_row last_terrain_type r with
    | (rows, cr2, last2, r2) => genLoop cr2 last2 (acc ++ rows) r2
  else (acc, r)
termination_by (current_row + 1).toNat
decreasing_by
  unfold genStep at hs
  obtain ⟨tt0, r1, htt⟩ :
      ∃ t u,
        pick_terrain_type r
          (get_terrain_probabilities (get_progress (current_row : ℚ))) =
        (t, u) := ⟨_, _, rfl⟩
  simp only [htt, RNG.rand, RNG.randint] at hs
  split_ifs at hs
  · injection hs with hs1 hs'
    injection hs' with hs2 hs''
    omega
  · cases tt0
    all_goals simp only [get_cluster_size, RNG.randint] at hs
    all_goals try split_ifs at hs
    all_goals injection hs with hs1 hs'
    all_goals injection hs' with hs2 hs''
    all_goals omega
  · cases tt0
    all_goals simp only [get_cluster_size, RNG.randint] at hs
    all_goals try split_ifs at hs
    all_goals injection hs with hs1 hs'
    all_goals injection hs' with hs2 hs''
    all_goals omega

/-- TerrainManager._generate_terrain: safe grass rows 95..99 first, then
clusters from row 94 down to row 0, then sort by row_num. -/
def generate_terrain (r : RNG) : List TerrainRow × RNG :=
  let safe_rows : ℤ := 5
  let initial : List TerrainRow :=
    (List.range' (TOTAL_ROWS - safe_rows).toNat safe_rows.toNat).map
      fun (i : ℕ) => ⟨(i : ℤ), Terrain.grass⟩
  let (rows, r2) := genLoop (TOTAL_ROWS - safe_rows - 1) Terrain.grass
    initial r
  (rows.mergeSort (fun a b => decide (a.row_num ≤ b.row_num)), r2)

/-- TerrainManager.get_terrain_at: index the (sorted) row list by grid
position, None out of bounds. -/
def get_terrain_at (rows : List TerrainRow) (grid_y : ℤ) : Option Terrain :=
  if 0 ≤ grid_y then (rows.get? grid_y.toNat).map TerrainRow.terrain_type
  else none

/-! ### obstacles.py -/

/-- Python's int(...) on a float: truncation toward zero. -/
def pyInt (q : ℚ) : ℤ := if 0 ≤ q then ⌊q⌋ else ⌈q⌉

/-- The concrete class of a moving obstacle (SmartCar/Sedan/Truck extend
Car; Log and Train extend Obstacle directly). -/
inductive ObKind where
  | smartcar
  | sedan
  | truck
  | log
  | train
deriving DecidableEq, Repr

/-- isinstance(o, Car). -/
def isCar (k : ObKind) : Bool :=
  match k with
  | ObKind.smartcar => true
  | ObKind.sedan => true
  | ObKind.truck => true
  | _ => false

/-- isinstance(o, Train). -/
def isTrain (k : ObKind) : Bool :=
  match k with
  | ObKind.train => true
  | _ => false

/-- isinstance(o, Log). -/
def isLog (k : ObKind) : Bool :=
  match k with
  | ObKind.log => true
  | _ => false

/-- A moving obstacle (colors are rendering-only and omitted; the three
car constructors always pass an explicit color, so no random draw is
lost). -/
structure Obstacle where
  kind : ObKind
  x : ℚ
  y : ℤ
  speed : ℚ
  direction : ℤ
  width : ℚ
deriving DecidableEq, Repr

def mkSmartCar (x : ℚ) (y : ℤ) (speed : ℚ) (direction : ℤ) : Obstacle :=
  ⟨ObKind.smartcar, x, y, speed, direction, 1⟩

def mkSedan (x : ℚ) (y : ℤ) (speed : ℚ) (direction : ℤ) : Obstacle :=
  ⟨ObKind.sedan, x, y, speed, direction, 2⟩

def mkTruck (x : ℚ) (y : ℤ) (speed : ℚ) (direction : ℤ) : Obstacle :=
  ⟨ObKind.truck, x, y, speed, direction, 3⟩

def mkLog (x : ℚ) (y : ℤ) (speed : ℚ) (direction : ℤ) : Obstacle :=
  ⟨ObKind.log, x, y, speed, direction, 2.5⟩

def mkTrain (x : ℚ) (y : ℤ) (direction : ℤ) : Obstacle :=
  ⟨ObKind.train, x, y, TRAIN_SPEED, direction, TRAIN_WIDTH⟩

/-- Obstacle.update: advance x by speed·direction·dt. then wrap around
the screen edges, accounting for width. -/
def Obstacle.update (o : Obstacle) (dt : ℚ) : Obstacle :=
  let x := o.x + o.speed * (o.direction : ℚ) * dt
  let x :=
    if 0 < o.direction ∧ (GRID_WIDTH : ℚ) + o.width < x then -o.width
    else if o.direction < 0 ∧ x < -o.width then (GRID_WIDTH : ℚ) + o.width
    else x
  { o with x := x }

structure Tree where
  x : ℤ
  y : ℤ
deriving DecidableEq, Repr

structure TrainTrack where
  row_y : ℤ
  progress : ℚ
  direction : ℤ
  train : Option Obstacle
  spawn_interval_min : ℚ
  spawn_interval_max : ℚ
  time_until_next_train : ℚ
  warning : Bool
deriving DecidableEq, Repr

/-- TrainTrack.__init__: randomized initial state (immediate train /
warning / normal interval), with progress-scaled spawn intervals. -/
def TrainTrack.init (row_y : ℤ) (progress : ℚ) (r : RNG) :
    TrainTrack × RNG :=
  let (direction, r) := r.choiceInt [-1, 1]
  let interval_scale := 1.0 - 0.3 * progress
  let spawn_interval_min := TRAIN_SPAWN_INTERVAL_MIN * interval_scale + 1.0
  let spawn_interval_max := TRAIN_SPAWN_INTERVAL_MAX * interval_scale + 2.0
  let immediate_spawn_chance := 0.10 + 0.20 * progress
  let warning_chance := 0.10 + 0.20 * progress
  let (roll, r) := r.rand
  if roll < immediate_spawn_chance then
    let (x, r) :=
      if 0 < direction then
        r.uniform (-TRAIN_WIDTH) ((GRID_WIDTH : ℚ) * 0.3)
      else
        r.uniform ((GRID_WIDTH : ℚ) * 0.7) ((GRID_WIDTH : ℚ) + TRAIN_WIDTH)
    let (t, r) := r.uniform spawn_interval_min spawn_interval_max
    (⟨row_y, progress, direction, some (mkTrain x row_y direction),
      spawn_interval_min, spawn_interval_max, t, false⟩, r)
  else if roll < immediate_spawn_chance + warning_chance then
    let (t, r) := r.uniform 0.5 TRAIN_WARNING_TIME
    (⟨row_y, progress, direction, none,
      spawn_interval_min, spawn_interval_max, t, true⟩, r)
  else
    let (t, r) := r.uniform spawn_interval_min spawn_interval_max
    (⟨row_y, progress, direction, none,
      spawn_interval_min, spawn_interval_max, t, false⟩, r)

/-- TrainTrack.update: drop an off-screen train and reschedule, then
count down toward the next spawn, raising the warning inside the
warning window and spawning a new off-screen train when the timer hits
zero (the spawned train is returned to the caller). -/
def TrainTrack.update (t : TrainTrack) (dt : ℚ) (r : RNG) :
    TrainTrack × Option Obstacle × RNG :=
  let (t, r) :=
    match t.train with
    | some tr =>
      if (0 < t.direction ∧ (GRID_WIDTH : ℚ) + TRAIN_WIDTH < tr.x) ∨
          (t.direction < 0 ∧ tr.x < -TRAIN_WIDTH) then
        let (u, r2) := r.uniform t.spawn_interval_min t.spawn_interval_max
        ({ t with
            train := none
            time_until_next_train := u
            warning := false }, r2)
      else (t, r)
    | none => (t, r)
  match t.train with
  | none =>
    let timer := t.time_until_next_train - dt
    let warning := if timer ≤ TRAIN_WARNING_TIME ∧ t.warning = false then
      true else t.warning
    if timer ≤ 0 then
      let x : ℚ :=
        if 0 < t.direction then -TRAIN_WIDTH
        else (GRID_WIDTH : ℚ) + TRAIN_WIDTH
      let tr := mkTrain x t.row_y t.direction
      ({ t with
          train := some tr
          time_until_next_train := timer
          warning := false }, some tr, r)
    else
      ({ t with time_until_next_train := timer, warning := warning },
        none, r)
  | some _ => (t, none, r)

structure ObstacleManager where
  obstacles : List Obstacle
  trees : List Tree
  train_tracks : List (ℤ × TrainTrack)
deriving DecidableEq, Repr

def ObstacleManager.empty : ObstacleManager := ⟨[], [], []⟩

/-- The car-placement for-loop of generate_for_row's road branch. -/
def genCarsGo (row_y : ℤ) (speed : ℚ) (direction : ℤ) (progress : ℚ)
    (num_cars : ℚ) : List ℕ → RNG → List Obstacle × RNG
  | [], r => ([], r)
  | i :: rest, r =>
    let spacing := (GRID_WIDTH : ℚ) / num_cars
    let (jit, r) := r.uniform (-(spacing * 0.3)) (spacing * 0.3)
    let x0 := (i : ℚ) * spacing + jit
    let x := if direction < 0 then (GRID_WIDTH : ℚ) - x0 else x0
    let truck_weight := 0.1 + 0.2 * progress
    let sedan_weight : ℚ := 0.4
    let smart_weight := 0.5 - 0.1 * progress
    let (c, r) := r.choices3 smart_weight sedan_weight truck_weight
    let car : Obstacle :=
      if c = 0 then mkSmartCar x row_y speed direction
      else if c = 1 then mkSedan x row_y speed direction
      else mkTruck x row_y speed direction
    let (cars, r) := genCarsGo row_y speed direction progress num_cars rest r
    (car :: cars, r)

/-- The log-placement for-loop of generate_for_row's river branch. -/
def genLogsGo (row_y : ℤ) (speed : ℚ) (direction : ℤ) (num_logs : ℚ) :
    List ℕ → RNG → List Obstacle × RNG
  | [], r => ([], r)
  | i :: rest, r =>
    let spacing := (GRID_WIDTH : ℚ) / num_logs
    let (jit, r) := r.uniform (-(spacing * 0.2)) (spacing * 0.2)
    let x0 := (i : ℚ) * spacing + jit
    let x := if direction < 0 then (GRID_WIDTH : ℚ) - x0 else x0
    let (logs, r) := genLogsGo row_y speed direction num_logs rest r
    (mkLog x row_y speed direction :: logs, r)

/-- ObstacleManager.generate_for_row: drop everything previously on the
row, then populate it according to the terrain type with
progress-scaled difficulty. -/
def ObstacleManager.generate_for_row (om : ObstacleManager) (row_y : ℤ)
    (terrain_type : Terrain) (r : RNG) : ObstacleManager × RNG :=
  let obstacles := om.obstacles.filter (fun o => !(o.y == row_y))
  let trees := om.trees.filter (fun t => !(t.y == row_y))
  let train_tracks := om.train_tracks.filter (fun p => !(p.1 == row_y))
  let progress := get_progress (row_y : ℚ)
  match terrain_type with
  | Terrain.road =>
    let min_cars := 1 + pyInt (progress * 1)
    let max_cars := 2 + pyInt (progress * 3)
    let (num_cars, r) := r.randint min_cars max_cars
    let speed_min := CAR_SPEED_MIN * (0.8 + 0.2 * progress)
    let speed_max := CAR_SPEED_MIN +
      (CAR_SPEED_MAX - CAR_SPEED_MIN) * (0.5 + 0.5 * progress)
    let (speed, r) := r.uniform speed_min speed_max
    let (direction, r) := r.choiceInt [-1, 1]
    let (cars, r) := genCarsGo row_y speed direction progress (num_cars : ℚ)
      (List.range num_cars.toNat) r
    (⟨obstacles ++ cars, trees, train_tracks⟩, r)
  | Terrain.river =>
    let min_logs := max 2 (3 - pyInt (progress * 1))
    let max_logs := max 3 (4 - pyInt (progress * 1))
    let (num_logs, r) := r.randint min_logs max_logs
    let speed_min := LOG_SPEED_MIN * (0.8 + 0.4 * progress)
    let speed_max := LOG_SPEED_MIN +
      (LOG_SPEED_MAX - LOG_SPEED_MIN) * (0.6 + 0.4 * progress)
    let (speed, r) := r.uniform speed_min speed_max
    let (direction, r) := r.choiceInt [-1, 1]
    let (logs, r) := genLogsGo row_y speed direction (num_logs : ℚ)
      (List.range num_logs.toNat) r
    (⟨obstacles ++ logs, trees, train_tracks⟩, r)
  | Terrain.grass =>
    let max_trees := 2 + pyInt (progress * 2)
    let (num_trees, r) := r.randint 0 max_trees
    if 0 < num_trees then
      let (positions, r) := r.sampleRange GRID_WIDTH.toNat num_trees.toNat
      (⟨obstacles, trees ++ positions.map (fun x => ⟨x, row_y⟩),
        train_tracks⟩, r)
    else (⟨obstacles, trees, train_tracks⟩, r)
  | Terrain.train =>
    let (track, r) := TrainTrack.init row_y progress r
    let train_tracks := train_tracks ++ [(row_y, track)]
    let obstacles :=
      match track.train with
      | some tr => obstacles ++ [tr]
      | none => obstacles
    (⟨obstacles, trees, train_tracks⟩, r)

/-- ObstacleManager.update: move every obstacle, then advance every
train track and register newly spawned trains.  In the source a
track's active train is the same object as its entry in the obstacle
list, so the track sees the position the motion loop just wrote;
the embedding reproduces that by applying the identical motion update
to the track's copy before the track update runs. -/
def ObstacleManager.update (om : ObstacleManager) (dt : ℚ) (r : RNG) :
    ObstacleManager × RNG :=
  let obstacles := om.obstacles.map (fun o => o.update dt)
  let step := fun (acc : List (ℤ × TrainTrack) × List Obstacle × RNG)
      (p : ℤ × TrainTrack) =>
    let tr : TrainTrack :=
      { p.2 with train := p.2.train.map (fun o => o.update dt) }
    let (t2, newTrain, r2) := TrainTrack.update tr dt acc.2.2
    (acc.1 ++ [(p.1, t2)], acc.2.1 ++ newTrain.toList, r2)
  let (tracks, newTrains, r2) := om.train_tracks.foldl step ([], [], r)
  (⟨obstacles ++ newTrains, om.trees, tracks⟩, r2)

/-- ObstacleManager.check_collision_with_car: scan the obstacle list for
a Car on the player's row whose [x, x+width) strictly overlaps the
player's [x, x+1). -/
def check_collision_with_car (player_x : ℚ) (player_y : ℤ) :
    List Obstacle → Bool
  | [] => false
  | o :: rest =>
    if isCar o.kind ∧ o.y = player_y ∧
        player_x < o.x + o.width ∧ o.x < player_x + 1 then true
    else check_collision_with_car player_x player_y rest

/-- ObstacleManager.check_collision_with_train: identical scan
restricted to Train obstacles. -/
def check_collision_with_train (player_x : ℚ) (player_y : ℤ) :
    List Obstacle → Bool
  | [] => false
  | o :: rest =>
    if isTrain o.kind ∧ o.y = player_y ∧
        player_x < o.x + o.width ∧ o.x < player_x + 1 then true
    else check_collision_with_train player_x player_y rest

/-- The overlap length between the player's unit-width box and an
obstacle, as computed in ObstacleManager.get_log_at_position. -/
def logOverlap (player_x : ℚ) (o : Obstacle) : ℚ :=
  max 0 (min (player_x + 1) (o.x + o.width) - max player_x o.x)

/-- The riding condition of get_log_at_position: a Log on the player's
row overlapping the player's box by at least 25% of the player width. -/
def ridesLog (player_x : ℚ) (player_y : ℤ) (o : Obstacle) : Prop :=
  isLog o.kind = true ∧ o.y = player_y ∧
    1.0 * 0.25 ≤ logOverlap player_x o

instance (player_x : ℚ) (player_y : ℤ) (o : Obstacle) :
    Decidable (ridesLog player_x player_y o) := by
  unfold ridesLog
  infer_instance

/-- ObstacleManager.get_log_at_position: first log in iteration order
whose overlap with the player is at least 0.25. -/
def get_log_at_position (player_x : ℚ) (player_y : ℤ) :
    List Obstacle → Option Obstacle
  | [] => none
  | o :: rest =>
    if ridesLog player_x player_y o then some o
    else get_log_at_position player_x player_y rest

/-- ObstacleManager.has_tree_at: exact integer-cell match. -/
def has_tree_at (grid_x grid_y : ℤ) : List Tree → Bool
  | [] => false
  | t :: rest =>
    if t.x = grid_x ∧ t.y = grid_y then true
    else has_tree_at grid_x grid_y rest

/-- ObstacleManager.is_train_warning. -/
def is_train_warning (tracks : List (ℤ × TrainTrack)) (grid_y : ℤ) : Bool :=
  match tracks.find? (fun p => p.1 == grid_y) with
  | some p => p.2.warning
  | none => false

/-! ### player.py -/

structure Player where
  x : ℚ
  y : ℤ
  max_row : ℤ
deriving DecidableEq, Repr

/-- Player.__init__ / Player.reset. -/
def Player.init : Player :=
  ⟨(PLAYER_START_X : ℚ), PLAYER_START_Y, PLAYER_START_Y⟩

def Player.reset (_p : Player) : Player := Player.init

/-- Player.move: snap the truncated current position plus the delta to
the grid if in bounds, tracking the lowest row reached. -/
def Player.move (p : Player) (dx dy grid_width grid_height : ℤ) :
    Player × Bool :=
  let new_x := pyInt p.x + dx
  let new_y := p.y + dy
  if 0 ≤ new_x ∧ new_x < grid_width ∧ 0 ≤ new_y ∧ new_y < grid_height then
    (⟨(new_x : ℚ), new_y,
      if new_y < p.max_row then new_y else p.max_row⟩, true)
  else (p, false)

/-- Player.get_score. -/
def Player.get_score (p : Player) : ℤ := PLAYER_START_Y - p.max_row

/-! ### game.py -/

inductive GMode where
  | start
  | playing
  | game_over
deriving DecidableEq, Repr

structure GameState where
  state : GMode
  player : Player
  terrain : List TerrainRow
  obstacle_manager : ObstacleManager
  high_score : ℤ
  scroll_y : ℚ
deriving DecidableEq, Repr

/-- GameState._generate_initial_obstacles: generate hazards for every
road/river/grass terrain row (keyed by its position in the row list). -/
def generate_initial_obstacles (om : ObstacleManager)
    (terrain : List TerrainRow) (r : RNG) : ObstacleManager × RNG :=
  terrain.enum.foldl
    (fun acc p =>
      if p.2.terrain_type = Terrain.road ∨ p.2.terrain_type = Terrain.river ∨
          p.2.terrain_type = Terrain.grass then
        acc.1.generate_for_row (p.1 : ℤ) p.2.terrain_type acc.2
      else acc)
    (om, r)

/-- GameState.__init__ (the high score is read from an external file and
passed in here). -/
def GameState.init (high_score : ℤ) (r : RNG) : GameState × RNG :=
  let (terrain, r) := generate_terrain r
  let (om, r) := generate_initial_obstacles ObstacleManager.empty terrain r
  (⟨GMode.start, Player.init, terrain, om, high_score, 0.0⟩, r)

/-- GameState.start_game: reset player, regenerate terrain, clear the
obstacle manager, reinitialize the scroll, regenerate obstacles. -/
def GameState.start_game (gs : GameState) (r : RNG) : GameState × RNG :=
  let player := gs.player.reset
  let (terrain, r) := generate_terrain r
  let om0 := ObstacleManager.empty
  let scroll_y : ℚ := ((player.y - GRID_HEIGHT + 3 : ℤ) : ℚ)
  let (om, r) := generate_initial_obstacles om0 terrain r
  (⟨GMode.playing, player, terrain, om, gs.high_score, scroll_y⟩, r)

/-- GameState.restart. -/
def GameState.restart (gs : GameState) (r : RNG) : GameState × RNG :=
  gs.start_game r

/-- GameState._game_over: flip the state and fold the score into the
high score (persistence is external). -/
def GameState.game_over_step (gs : GameState) : GameState :=
  let score := gs.player.get_score
  { gs with
      state := GMode.game_over
      high_score := if gs.high_score < score then score else gs.high_score }

/-- GameState.update: scroll, scroll-death check, obstacle motion, then
the river (log ride / drown) and road (car collision) outcomes. -/
def GameState.update (gs : GameState) (dt : ℚ) (r : RNG) :
    GameState × RNG :=
  if gs.state ≠ GMode.playing then (gs, r)
  else
    let gs1 := { gs with scroll_y := gs.scroll_y - SCROLL_SPEED * dt }
    let scroll_bottom := gs1.scroll_y + (GRID_HEIGHT : ℚ)
    if scroll_bottom ≤ (gs1.player.y : ℚ) then (gs1.game_over_step, r)
    else
      let (om, r) := gs1.obstacle_manager.update dt r
      let gs2 := { gs1 with obstacle_manager := om }
      let current_terrain := get_terrain_at gs2.terrain gs2.player.y
      let gs3 :=
        if current_terrain = some Terrain.river then
          match get_log_at_position gs2.player.x gs2.player.y
              gs2.obstacle_manager.obstacles with
          | some lg =>
            let px := gs2.player.x + lg.speed * (lg.direction : ℚ) * dt
            let gsl := { gs2 with player := { gs2.player with x := px } }
            if px < 0 ∨ (GRID_WIDTH : ℚ) ≤ px then gsl.game_over_step
            else gsl
          | none => gs2.game_over_step
        else gs2
      let gs4 :=
        if current_terrain = some Terrain.road then
          if check_collision_with_car gs3.player.x gs3.player.y
              gs3.obstacle_manager.obstacles then gs3.game_over_step
          else gs3
        else gs3
      (gs4, r)

/-- GameState.move_player: only while playing; reject out-of-bounds or
tree-blocked targets, otherwise delegate to Player.move. -/
def GameState.move_player (gs : GameState) (dx dy : ℤ) : GameState :=
  if gs.state = GMode.playing then
    let target_x := pyInt gs.player.x + dx
    let target_y := gs.player.y + dy
    if 0 ≤ target_x ∧ target_x < GRID_WIDTH ∧
        0 ≤ target_y ∧ target_y < TOTAL_ROWS then
      if has_tree_at target_x target_y gs.obstacle_manager.trees = false then
        { gs with player := (gs.player.move dx dy GRID_WIDTH TOTAL_ROWS).1 }
      else gs
    else gs
  else gs

def GameState.get_score (gs : GameState) : ℤ := gs.player.get_score

/-! ### Concrete inputs used by closed-instance theorems -/

/-- A fixed random source (all draws read 0). -/
def wRNG : RNG := ⟨fun _ => 0, fun _ => 0, 0⟩

/-- A Playing state: player on the start cell of an all-grass world,
scroll well above the player. -/
def wGS : GameState :=
  ⟨GMode.playing, Player.init, [], ObstacleManager.empty, 0, 85⟩

/-- Terrain whose row 40 is a Rail row (all others grass). -/
def railTerrain : List TerrainRow :=
  (List.range 100).map fun (i : ℕ) =>
    ⟨(i : ℤ), if i = 40 then Terrain.train else Terrain.grass⟩

/-- A Playing state with the player on the Rail row 40, standing inside
the footprint of a live Train. -/
def railGS : GameState :=
  ⟨GMode.playing, ⟨10, 40, 40⟩, railTerrain,
    ⟨[mkTrain 0 40 1], [], []⟩, 0, 30⟩

/-- A GameOver state full of stale hazards, trees and tracks. -/
def overGS : GameState :=
  ⟨GMode.game_over, ⟨3, 50, 50⟩, railTerrain,
    ⟨[mkTrain 0 40 1, mkLog 2 7 1 1], [⟨5, 98⟩],
      [(40, ⟨40, 1, 1, none, 5, 10, 3, false⟩)]⟩, 7, 42⟩

/-! ### Theorems -/

theorem RNG.randint_mem (r : RNG) (lo hi : ℤ) (h : lo ≤ hi) :
    lo ≤ (r.randint lo hi).1 ∧ (r.randint lo hi).1 ≤ hi := by
  unfold RNG.randint
  have hpos : 0 < (hi + 1 - lo).toNat := by omega
  have := Nat.mod_lt (r.nats r.idx) hpos
  omega

theorem RNG.randint_ge (r : RNG) (lo hi : ℤ) : lo ≤ (r.randint lo hi).1 := by
  unfold RNG.randint
  omega

theorem river_prob_eq (p : ℚ) :
    river_prob p =
      if 0 < p then (if 0.15 < p then 0.25 * min 1 ((p - 0.15) / 0.35) else 0)
      else 0 := by
  unfold river_prob get_terrain_probabilities
  split_ifs <;> rfl

theorem rail_prob_eq (p : ℚ) :
    rail_prob p =
      if 0 < p then (if 0.35 < p then 0.10 * min 1 ((p - 0.35) / 0.40) else 0)
      else 0 := by
  unfold rail_prob get_terrain_probabilities
  split_ifs <;> rfl

theorem road_prob_eq (p : ℚ) :
    road_prob p = if 0 < p then 0.50 - 0.15 * p else 0.50 := by
  unfold road_prob get_terrain_probabilities
  split_ifs <;> rfl

theorem grass_prob_eq (p : ℚ) :
    grass_prob p =
      if 0 < p then 1 - road_prob p - river_prob p - rail_prob p else 0.50 := by
  unfold grass_prob road_prob river_prob rail_prob get_terrain_probabilities
  split_ifs <;> rfl

theorem river_prob_bounds (p : ℚ) : 0 ≤ river_prob p ∧ river_prob p ≤ 0.25 := by
  rw [river_prob_eq]
  split_ifs with h1 h2
  · constructor
    · have h0 : (0 : ℚ) ≤ min 1 ((p - 0.15) / 0.35) :=
        le_min (by norm_num) (div_nonneg (by linarith) (by norm_num))
      nlinarith
    · have h0 : min 1 ((p - 0.15) / 0.35) ≤ 1 := min_le_left _ _
      nlinarith
  · norm_num
  · norm_num

theorem rail_prob_bounds (p : ℚ) : 0 ≤ rail_prob p ∧ rail_prob p ≤ 0.10 := by
  rw [rail_prob_eq]
  split_ifs with h1 h2
  · constructor
    · have h0 : (0 : ℚ) ≤ min 1 ((p - 0.35) / 0.40) :=
        le_min (by norm_num) (div_nonneg (by linarith) (by norm_num))
      nlinarith
    · have h0 : min 1 ((p - 0.35) / 0.40) ≤ 1 := min_le_left _ _
      nlinarith
  · norm_num
  · norm_num

theorem river_prob_mono (p q : ℚ) (hpq : p ≤ q) :
    river_prob p ≤ river_prob q := by
  by_cases h2 : (0.15 : ℚ) < p
  · have hq2 : (0.15 : ℚ) < q := lt_of_lt_of_le h2 hpq
    have hp1 : (0 : ℚ) < p := by linarith
    have hq1 : (0 : ℚ) < q := by linarith
    rw [river_prob_eq, river_prob_eq, if_pos hp1, if_pos hq1, if_pos h2,
      if_pos hq2]
    have hd : (p - 0.15) / 0.35 ≤ (q - 0.15) / 0.35 :=
      (div_le_div_right (by norm_num)).mpr (by linarith)
    have hm := min_le_min (le_refl (1 : ℚ)) hd
    nlinarith [hm]
  · have hz : river_prob p = 0 := by
      rw [river_prob_eq]
      rcases lt_or_le 0 p with hp | hp
      · rw [if_pos hp, if_neg h2]
      · rw [if_neg (not_lt.mpr hp)]
    rw [hz]
    exact (river_prob_bounds q).1

theorem rail_prob_mono (p q : ℚ) (hpq : p ≤ q) :
    rail_prob p ≤ rail_prob q := by
  by_cases h2 : (0.35 : ℚ) < p
  · have hq2 : (0.35 : ℚ) < q := lt_of_lt_of_le h2 hpq
    have hp1 : (0 : ℚ) < p := by linarith
    have hq1 : (0 : ℚ) < q := by linarith
    rw [rail_prob_eq, rail_prob_eq, if_pos hp1, if_pos hq1, if_pos h2,
      if_pos hq2]
    have hd : (p - 0.35) / 0.40 ≤ (q - 0.35) / 0.40 :=
      (div_le_div_right (by norm_num)).mpr (by linarith)
    have hm := min_le_min (le_refl (1 : ℚ)) hd
    nlinarith [hm]
  · have hz : rail_prob p = 0 := by
      rw [rail_prob_eq]
      rcases lt_or_le 0 p with hp | hp
      · rw [if_pos hp, if_neg h2]
      · rw [if_neg (not_lt.mpr hp)]
    rw [hz]
    exact (rail_prob_bounds q).1

/-- C5: for every progress in [0,1] the four terrain probabilities sum to
exactly 1 with grass_prob nonnegative, and as functions of progress
river_prob and rail_prob are non-decreasing while road_prob is
non-increasing. -/
theorem terrain_probabilities_spec (p q : ℚ)
    (hp0 : 0 ≤ p) (hp1 : p ≤ 1) (hq1 : q ≤ 1) (hpq : p ≤ q) :
    (grass_prob p + road_prob p + river_prob p + rail_prob p = 1 ∧
      0 ≤ grass_prob p) ∧
    river_prob p ≤ river_prob q ∧
    rail_prob p ≤ rail_prob q ∧
    road_prob q ≤ road_prob p := by
  have hq0 : 0 ≤ q := le_trans hp0 hpq
  refine ⟨⟨?_, ?_⟩, ?_, ?_, ?_⟩
  · rw [grass_prob_eq]
    split_ifs with h
    · ring
    · rw [road_prob_eq, river_prob_eq, rail_prob_eq, if_neg h, if_neg h,
        if_neg h]
      norm_num
  · rw [grass_prob_eq]
    split_ifs with h
    · have hr := (river_prob_bounds p).2
      have ht := (rail_prob_bounds p).2
      rw [road_prob_eq, if_pos h]
      linarith
    · norm_num
  · exact river_prob_mono p q hpq
  · exact rail_prob_mono p q hpq
  · rw [road_prob_eq, road_prob_eq]
    split_ifs <;> linarith

/-- Closed-instance check of the probability theorem at p = 0, q = 1. -/
theorem terrain_probabilities_spec_witness :
    (grass_prob 0 + road_prob 0 + river_prob 0 + rail_prob 0 = 1 ∧
      0 ≤ grass_prob 0) ∧
    river_prob 0 ≤ river_prob 1 ∧
    rail_prob 0 ≤ rail_prob 1 ∧
    road_prob 1 ≤ road_prob 0 :=
  terrain_probabilities_spec 0 1 (by norm_num) (by norm_num) (by norm_num)
    (by norm_num)

theorem get_cluster_size_pos (terrain_type : Terrain) (progress : ℚ)
    (r : RNG) : 1 ≤ (get_cluster_size terrain_type progress r).1 := by
  unfold get_cluster_size
  cases terrain_type <;> simp only
  · exact RNG.randint_ge r 1 2
  · split_ifs
    · norm_num
    · exact RNG.randint_ge r 1 2
    · exact RNG.randint_ge r 1 3
  · split_ifs
    · norm_num
    · exact RNG.randint_ge r 1 2
    · exact RNG.randint_ge r 1 3
  · norm_num

/-- Every loop iteration emits one clipped cluster: some size in
[1, current_row + 1] and some terrain type. -/
theorem genStep_shape (current_row : ℤ) (last_terrain_type : Terrain)
    (r : RNG) (h : 0 ≤ current_row) :
    ∃ (sz : ℤ) (tt : Terrain) (r2 : RNG), 1 ≤ sz ∧ sz ≤ current_row + 1 ∧
      genStep current_row last_terrain_type r =
        (clusterRows current_row sz tt, current_row - sz, tt, r2) := by
  unfold genStep
  obtain ⟨tt0, r1, htt⟩ :
      ∃ tt0 r1,
        pick_terrain_type r
          (get_terrain_probabilities (get_progress (current_row : ℚ))) =
        (tt0, r1) := ⟨_, _, rfl⟩
  simp only [htt]
  split_ifs with hd hroll
  · obtain ⟨g, r2, hg⟩ : ∃ g r2, (r1.bump).randint 1 2 = (g, r2) := ⟨_, _, rfl⟩
    have hg1 : 1 ≤ g := by
      have := RNG.randint_ge (r1.bump) 1 2
      rw [hg] at this
      exact this
    refine ⟨min g (current_row + 1), Terrain.grass, r2, ?_, ?_, ?_⟩
    · omega
    · exact min_le_right _ _
    · simp [RNG.rand, hg]
  · obtain ⟨cs, r2, hcs⟩ :
        ∃ cs r2,
          get_cluster_size tt0 (get_progress (current_row : ℚ)) (r1.bump) =
            (cs, r2) := ⟨_, _, rfl⟩
    have hcs1 : 1 ≤ cs := by
      have := get_cluster_size_pos tt0 (get_progress (current_row : ℚ))
        (r1.bump)
      rw [hcs] at this
      exact this
    refine ⟨min cs (current_row + 1), tt0, r2, ?_, ?_, ?_⟩
    · omega
    · exact min_le_right _ _
    · simp [RNG.rand, hcs]
  · obtain ⟨cs, r2, hcs⟩ :
        ∃ cs r2,
          get_cluster_size tt0 (get_progress (current_row : ℚ)) r1 =
            (cs, r2) := ⟨_, _, rfl⟩
    have hcs1 : 1 ≤ cs := by
      have := get_cluster_size_pos tt0 (get_progress (current_row : ℚ)) r1
      rw [hcs] at this
      exact this
    refine ⟨min cs (current_row + 1), tt0, r2, ?_, ?_, ?_⟩
    · omega
    · exact min_le_right _ _
    · simp [hcs]

theorem clusterRowsAux (cr : ℤ) (tt : Terrain) :
    ∀ n : ℕ, (n : ℤ) ≤ cr + 1 →
      ((List.range n).filterMap fun (i : ℕ) =>
        if 0 ≤ cr - (i : ℤ) then some (TerrainRow.mk (cr - (i : ℤ)) tt)
        else none) =
      (List.range n).map fun (i : ℕ) => TerrainRow.mk (cr - (i : ℤ)) tt := by
  intro n
  induction n with
  | zero => intro _; rfl
  | succ m ih =>
    intro hn
    rw [List.range_succ, List.filterMap_append, List.map_append,
      ih (by omega)]
    simp only [List.filterMap_cons, List.filterMap_nil, List.map_cons,
      List.map_nil]
    rw [if_pos (by omega : (0 : ℤ) ≤ cr - (m : ℤ))]

theorem clusterRows_eq_map (cr sz : ℤ) (tt : Terrain) (h0 : 0 ≤ sz)
    (h1 : sz ≤ cr + 1) :
    clusterRows cr sz tt =
      (List.range sz.toNat).map
        fun (i : ℕ) => TerrainRow.mk (cr - (i : ℤ)) tt := by
  unfold clusterRows
  exact clusterRowsAux cr tt sz.toNat (by omega)

theorem count_clusterRows (cr sz : ℤ) (tt : Terrain) (h0 : 0 ≤ sz)
    (h1 : sz ≤ cr + 1) (k : ℤ) :
    ((clusterRows cr sz tt).map TerrainRow.row_num).count k =
      if cr - sz < k ∧ k ≤ cr then 1 else 0 := by
  rw [clusterRows_eq_map cr sz tt h0 h1, List.map_map]
  have hinj : Function.Injective
      (TerrainRow.row_num ∘ fun i : ℕ => TerrainRow.mk (cr - (i : ℤ)) tt) := by
    intro a b hab
    simp only [Function.comp_apply] at hab
    omega
  have hnd := (List.nodup_range sz.toNat).map hinj
  by_cases hk : cr - sz < k ∧ k ≤ cr
  · rw [if_pos hk]
    apply List.count_eq_one_of_mem hnd
    simp only [List.mem_map, List.mem_range, Function.comp_apply]
    refine ⟨(cr - k).toNat, by omega, ?_⟩
    show cr - ((cr - k).toNat : ℤ) = k
    omega
  · rw [if_neg hk]
    apply List.count_eq_zero_of_not_mem
    simp only [List.mem_map, List.mem_range, Function.comp_apply]
    rintro ⟨i, hi, hik⟩
    have : cr - (i : ℤ) = k := hik
    omega

theorem mem_clusterRows (cr sz : ℤ) (tt : Terrain) (row : TerrainRow)
    (h : row ∈ clusterRows cr sz tt) :
    row.terrain_type = tt ∧ row.row_num ≤ cr := by
  unfold clusterRows at h
  obtain ⟨i, hi, hsome⟩ := List.mem_filterMap.mp h
  by_cases hc : 0 ≤ cr - (i : ℤ)
  · rw [if_pos hc] at hsome
    cases hsome
    refine ⟨rfl, ?_⟩
    show cr - (i : ℤ) ≤ cr
    omega
  · rw [if_neg hc] at hsome
    exact absurd hsome (by simp)

/-- Row-index coverage invariant of the generation loop: if the rows
accumulated so far cover exactly the indices in (current_row, 100),
the loop finishes covering exactly [0, 100). -/
theorem genLoop_count (n : ℕ) : ∀ cr : ℤ, (cr + 1).toNat = n →
    ∀ (lt : Terrain) (acc : List TerrainRow) (r : RNG),
      -1 ≤ cr → cr ≤ 99 →
      (∀ k : ℤ, (acc.map TerrainRow.row_num).count k =
        if cr < k ∧ k < 100 then 1 else 0) →
      ∀ k : ℤ, (((genLoop cr lt acc r).1).map TerrainRow.row_num).count k =
        if 0 ≤ k ∧ k < 100 then 1 else 0 := by
  induction n using Nat.strong_induction_on with
  | _ n ih =>
    intro cr hn lt acc r hcr hcr99 hacc k
    rw [genLoop]
    split
    case isTrue h =>
      obtain ⟨sz, tt, r3, h1, h2, heq⟩ := genStep_shape cr lt r h
      rw [heq]
      exact ih ((cr - sz) + 1).toNat (by omega) (cr - sz) rfl tt
        (acc ++ clusterRows cr sz tt) r3 (by omega) (by omega)
        (fun k' => by
          rw [List.map_append, List.count_append, hacc k',
            count_clusterRows cr sz tt (by omega) h2 k']
          split_ifs <;> omega) k
    case isFalse h =>
      rw [hacc k]
      split_ifs <;> omega

/-- Every row produced by the loop either was already accumulated or has
index at most the starting current_row. -/
theorem genLoop_mem (n : ℕ) : ∀ cr : ℤ, (cr + 1).toNat = n →
    ∀ (lt : Terrain) (acc : List TerrainRow) (r : RNG)
      (row : TerrainRow), row ∈ (genLoop cr lt acc r).1 →
      row ∈ acc ∨ row.row_num ≤ cr := by
  induction n using Nat.strong_induction_on with
  | _ n ih =>
    intro cr hn lt acc r row hrow
    rw [genLoop] at hrow
    split at hrow
    case isTrue h =>
      obtain ⟨sz, tt, r3, h1, h2, heq⟩ := genStep_shape cr lt r h
      rw [heq] at hrow
      rcases ih ((cr - sz) + 1).toNat (by omega) (cr - sz) rfl tt
          (acc ++ clusterRows cr sz tt) r3 row hrow with hmem | hle
      · rcases List.mem_append.mp hmem with ha | hc
        · exact Or.inl ha
        · exact Or.inr (mem_clusterRows cr sz tt row hc).2
      · exact Or.inr (by omega)
    case isFalse h =>
      exact Or.inl hrow

/-- C4: terrain generation terminates (generate_terrain is a total
function) and produces exactly TOTAL_ROWS rows whose indices are
exactly 0,...,99 in ascending order, with every row of index at least
95 (the safe zone, i.e. the last safe_rows = 5 rows) being Grass —
clipping included, since the invariant is proved for every random
source. -/
theorem generate_terrain_spec (r : RNG) :
    ((generate_terrain r).1).map TerrainRow.row_num =
      (List.range 100).map (fun (i : ℕ) => (i : ℤ)) ∧
    ((generate_terrain r).1).length = 100 ∧
    ∀ row ∈ (generate_terrain r).1, 95 ≤ row.row_num →
      row.terrain_type = Terrain.grass := by
  have hTR : TOTAL_ROWS = (100 : ℤ) := rfl
  obtain ⟨rows0, r2, hloop⟩ :
      ∃ rows0 r2,
        genLoop (TOTAL_ROWS - 5 - 1) Terrain.grass
          ((List.range' (TOTAL_ROWS - 5).toNat (5 : ℤ).toNat).map
            fun (i : ℕ) => TerrainRow.mk (i : ℤ) Terrain.grass) r =
          (rows0, r2) :=
    ⟨_, _, rfl⟩
  have hgen : (generate_terrain r).1 =
      rows0.mergeSort (fun a b => decide (a.row_num ≤ b.row_num)) := by
    simp only [generate_terrain]
    rw [hloop]
  -- counts of the accumulated safe rows
  have hinit : ∀ k : ℤ,
      (((List.range' (TOTAL_ROWS - 5).toNat (5 : ℤ).toNat).map
        (fun (i : ℕ) => TerrainRow.mk (i : ℤ) Terrain.grass)).map
          TerrainRow.row_num).count k =
      if TOTAL_ROWS - 5 - 1 < k ∧ k < 100 then 1 else 0 := by
    intro k
    have hlist : ((List.range' (TOTAL_ROWS - 5).toNat (5 : ℤ).toNat).map
        (fun (i : ℕ) => TerrainRow.mk (i : ℤ) Terrain.grass)).map
          TerrainRow.row_num = [95, 96, 97, 98, 99] := by decide
    rw [hlist, hTR]
    simp only [List.count_cons, List.count_nil, beq_iff_eq]
    split_ifs <;> omega
  have hcount : ∀ k : ℤ, (rows0.map TerrainRow.row_num).count k =
      if 0 ≤ k ∧ k < 100 then 1 else 0 := by
    intro k
    have := genLoop_count 95 (TOTAL_ROWS - 5 - 1) (by rw [hTR]; rfl) Terrain.grass
      ((List.range' (TOTAL_ROWS - 5).toNat (5 : ℤ).toNat).map
        fun (i : ℕ) => TerrainRow.mk (i : ℤ) Terrain.grass) r
      (by rw [hTR]; norm_num) (by rw [hTR]; norm_num) hinit k
    rw [hloop] at this
    exact this
  -- sortedness of the merge-sorted rows
  have hsorted : List.Pairwise
      (fun a b : TerrainRow => a.row_num ≤ b.row_num)
      (rows0.mergeSort (fun a b => decide (a.row_num ≤ b.row_num))) := by
    have htrans : ∀ a b c : TerrainRow,
        decide (a.row_num ≤ b.row_num) = true →
        decide (b.row_num ≤ c.row_num) = true →
        decide (a.row_num ≤ c.row_num) = true := by
      intro a b c h1 h2
      exact decide_eq_true
        (le_trans (of_decide_eq_true h1) (of_decide_eq_true h2))
    have htot : ∀ a b : TerrainRow,
        (decide (a.row_num ≤ b.row_num) || decide (b.row_num ≤ a.row_num)) =
          true := by
      intro a b
      rcases le_total a.row_num b.row_num with h | h
      · simp [h]
      · simp [h]
    have := List.sorted_mergeSort htrans htot rows0
    exact this.imp fun h => of_decide_eq_true h
  have hperm := List.mergeSort_perm rows0
    (fun a b : TerrainRow => decide (a.row_num ≤ b.row_num))
  -- identify the sorted index list with range 100
  have htarget_nodup : ((List.range 100).map (fun (i : ℕ) => (i : ℤ))).Nodup :=
    (List.nodup_range 100).map (fun a b h => by exact_mod_cast h)
  have htarget_count : ∀ k : ℤ,
      (((List.range 100).map (fun (i : ℕ) => (i : ℤ)))).count k =
        if 0 ≤ k ∧ k < 100 then 1 else 0 := by
    intro k
    by_cases hk : 0 ≤ k ∧ k < 100
    · rw [if_pos hk]
      apply List.count_eq_one_of_mem htarget_nodup
      simp only [List.mem_map, List.mem_range]
      exact ⟨k.toNat, by omega, by omega⟩
    · rw [if_neg hk]
      apply List.count_eq_zero_of_not_mem
      simp only [List.mem_map, List.mem_range]
      rintro ⟨i, hi, hik⟩
      omega
  have hmapperm : List.Perm (((generate_terrain r).1).map TerrainRow.row_num)
      ((List.range 100).map (fun (i : ℕ) => (i : ℤ))) := by
    rw [List.perm_iff_count]
    intro k
    rw [htarget_count k, hgen]
    rw [List.Perm.count_eq (List.Perm.map TerrainRow.row_num hperm) k]
    exact hcount k
  have hmapsorted : List.Pairwise (fun a b : ℤ => a ≤ b)
      (((generate_terrain r).1).map TerrainRow.row_num) := by
    rw [hgen]
    exact List.Pairwise.map TerrainRow.row_num (fun a b h => h) hsorted
  have htargetsorted : List.Pairwise (fun a b : ℤ => a ≤ b)
      ((List.range 100).map (fun (i : ℕ) => (i : ℤ))) := by
    have := List.pairwise_lt_range 100
    refine this.map (fun (i : ℕ) => (i : ℤ)) ?_
    intro a b h
    show (a : ℤ) ≤ (b : ℤ)
    exact_mod_cast le_of_lt h
  have heq : ((generate_terrain r).1).map TerrainRow.row_num =
      (List.range 100).map (fun (i : ℕ) => (i : ℤ)) :=
    List.eq_of_perm_of_sorted hmapperm hmapsorted htargetsorted
  refine ⟨heq, ?_, ?_⟩
  · have := congrArg List.length heq
    simpa using this
  · intro row hrow hge
    have hrow0 : row ∈ rows0 := by
      rw [hgen] at hrow
      exact hperm.mem_iff.mp hrow
    rcases genLoop_mem 95 (TOTAL_ROWS - 5 - 1) (by rw [hTR]; rfl) Terrain.grass
        ((List.range' (TOTAL_ROWS - 5).toNat (5 : ℤ).toNat).map
          fun (i : ℕ) => TerrainRow.mk (i : ℤ) Terrain.grass) r row
        (by rw [hloop]; exact hrow0) with hmem | hle
    · obtain ⟨i, hi, hrw⟩ := List.mem_map.mp hmem
      rw [← hrw]
    · rw [hTR] at hle
      omega

/-- C8: check_collision_with_car is true iff some Car (smart car, sedan
or truck — isCar excludes trains and logs, and trees are not in the
obstacle list at all) on the player's row has footprint [x, x+width)
strictly overlapping the player's [x, x+1); in particular it is false
whenever no car is on the row. -/
theorem check_collision_with_car_spec (player_x : ℚ) (player_y : ℤ)
    (obstacles : List Obstacle) :
    (check_collision_with_car player_x player_y obstacles = true ↔
      ∃ o ∈ obstacles, isCar o.kind = true ∧ o.y = player_y ∧
        player_x < o.x + o.width ∧ o.x < player_x + 1) ∧
    isCar ObKind.train = false ∧ isCar ObKind.log = false := by
  refine ⟨?_, rfl, rfl⟩
  induction obstacles with
  | nil => simp [check_collision_with_car]
  | cons o rest ih =>
    rw [check_collision_with_car]
    split_ifs with h
    · constructor
      · intro _
        exact ⟨o, List.mem_cons_self o rest, h⟩
      · intro _
        rfl
    · rw [ih]
      constructor
      · rintro ⟨o2, ho2, hP⟩
        exact ⟨o2, List.mem_cons_of_mem o ho2, hP⟩
      · rintro ⟨o2, ho2, hP⟩
        rcases List.mem_cons.mp ho2 with he | hm
        · exact absurd (he ▸ hP) h
        · exact ⟨o2, hm, hP⟩

/-- C6: get_log_at_position returns some log iff some Log on the
player's row overlaps the player's unit box by at least 0.25 (an
overlap of exactly 0.25 qualifies, anything strictly below does not:
the threshold comparison is 0.25 ≤ overlap), and the log returned is
the first qualifying one in iteration order. -/
theorem get_log_at_position_spec (player_x : ℚ) (player_y : ℤ)
    (obstacles : List Obstacle) :
    ((get_log_at_position player_x player_y obstacles).isSome = true ↔
      ∃ o ∈ obstacles, ridesLog player_x player_y o) ∧
    (∀ lg, get_log_at_position player_x player_y obstacles = some lg →
      ridesLog player_x player_y lg ∧
      ∃ pre post, obstacles = pre ++ lg :: post ∧
        ∀ o ∈ pre, ¬ ridesLog player_x player_y o) ∧
    (∀ o : Obstacle, ridesLog player_x player_y o ↔
      isLog o.kind = true ∧ o.y = player_y ∧
        0.25 ≤ logOverlap player_x o) := by
  refine ⟨?_, ?_, fun o => by unfold ridesLog; norm_num⟩
  · induction obstacles with
    | nil => simp [get_log_at_position]
    | cons o rest ih =>
      rw [get_log_at_position]
      split_ifs with h
      · constructor
        · intro _
          exact ⟨o, List.mem_cons_self o rest, h⟩
        · intro _
          rfl
      · rw [ih]
        constructor
        · rintro ⟨o2, ho2, hP⟩
          exact ⟨o2, List.mem_cons_of_mem o ho2, hP⟩
        · rintro ⟨o2, ho2, hP⟩
          rcases List.mem_cons.mp ho2 with he | hm
          · exact absurd (he ▸ hP) h
          · exact ⟨o2, hm, hP⟩
  · induction obstacles with
    | nil =>
      intro lg hlg
      simp [get_log_at_position] at hlg
    | cons o rest ih =>
      intro lg hlg
      rw [get_log_at_position] at hlg
      split_ifs at hlg with h
      · injection hlg with he
        subst he
        exact ⟨h, [], rest, rfl, by simp⟩
      · obtain ⟨hr, pre, post, heq, hpre⟩ := ih lg hlg
        refine ⟨hr, o :: pre, post, by rw [List.cons_append, heq], ?_⟩
        intro o2 ho2
        rcases List.mem_cons.mp ho2 with he | hm
        · exact he ▸ h
        · exact hpre o2 hm

/-- C10: one Obstacle.update step keeps x inside [-width, GRID_WIDTH +
width] for any moving obstacle already inside it (direction ±1, speed
and dt nonnegative), and a crossing of the far edge is placed exactly
on the opposite margin. -/
theorem obstacle_update_wrap_invariant (o : Obstacle) (dt : ℚ)
    (hdir : o.direction = 1 ∨ o.direction = -1)
    (hsp : 0 ≤ o.speed) (hw : 0 ≤ o.width) (hdt : 0 ≤ dt)
    (hx1 : -o.width ≤ o.x) (hx2 : o.x ≤ (GRID_WIDTH : ℚ) + o.width) :
    (-o.width ≤ (o.update dt).x ∧
      (o.update dt).x ≤ (GRID_WIDTH : ℚ) + o.width) ∧
    (0 < o.direction →
      (GRID_WIDTH : ℚ) + o.width < o.x + o.speed * (o.direction : ℚ) * dt →
      (o.update dt).x = -o.width) ∧
    (o.direction < 0 →
      o.x + o.speed * (o.direction : ℚ) * dt < -o.width →
      (o.update dt).x = (GRID_WIDTH : ℚ) + o.width) := by
  have hxeq : (o.update dt).x =
      (if 0 < o.direction ∧
          (GRID_WIDTH : ℚ) + o.width < o.x + o.speed * (o.direction : ℚ) * dt
        then -o.width
        else if o.direction < 0 ∧
            o.x + o.speed * (o.direction : ℚ) * dt < -o.width
          then (GRID_WIDTH : ℚ) + o.width
          else o.x + o.speed * (o.direction : ℚ) * dt) := rfl
  have hmul : 0 ≤ o.speed * dt := mul_nonneg hsp hdt
  rcases hdir with h | h
  · have hcast : ((o.direction : ℤ) : ℚ) = 1 := by rw [h]; norm_num
    have hneg : ¬ o.direction < 0 := by omega
    have hpos : 0 < o.direction := by omega
    rw [hxeq]
    split_ifs with h1 h2
    · refine ⟨⟨by linarith, by linarith⟩, fun _ _ => rfl, fun hc => absurd hc hneg⟩
    · exact absurd h2.1 hneg
    · refine ⟨⟨?_, ?_⟩, ?_, fun hc => absurd hc hneg⟩
      · rw [hcast]
        linarith
      · rw [hcast] at h1 ⊢
        push_neg at h1
        have := h1 hpos
        linarith
      · intro _ hgt
        exact absurd ⟨hpos, hgt⟩ h1
  · have hcast : ((o.direction : ℤ) : ℚ) = -1 := by rw [h]; norm_num
    have hneg : ¬ 0 < o.direction := by omega
    have hpos : o.direction < 0 := by omega
    rw [hxeq]
    split_ifs with h1 h2
    · exact absurd h1.1 hneg
    · refine ⟨⟨by linarith, by linarith⟩, fun hc => absurd hc hneg, fun _ _ => rfl⟩
    · refine ⟨⟨?_, ?_⟩, fun hc => absurd hc hneg, ?_⟩
      · rw [hcast] at h2 ⊢
        push_neg at h2
        have := h2 hpos
        linarith
      · rw [hcast]
        linarith
      · intro _ hlt
        exact absurd ⟨hpos, hlt⟩ h2

/-- Closed instance of the wrap invariant: a rightbound log at the
right margin wraps to exactly -width. -/
theorem obstacle_update_wrap_invariant_witness :
    (-(mkLog 22 3 1 1).width ≤ ((mkLog 22 3 1 1).update 1).x ∧
      ((mkLog 22 3 1 1).update 1).x ≤
        (GRID_WIDTH : ℚ) + (mkLog 22 3 1 1).width) ∧
    (0 < (mkLog 22 3 1 1).direction →
      (GRID_WIDTH : ℚ) + (mkLog 22 3 1 1).width <
        (mkLog 22 3 1 1).x +
          (mkLog 22 3 1 1).speed * ((mkLog 22 3 1 1).direction : ℚ) * 1 →
      ((mkLog 22 3 1 1).update 1).x = -(mkLog 22 3 1 1).width) ∧
    ((mkLog 22 3 1 1).direction < 0 →
      (mkLog 22 3 1 1).x +
          (mkLog 22 3 1 1).speed * ((mkLog 22 3 1 1).direction : ℚ) * 1 <
        -(mkLog 22 3 1 1).width →
      ((mkLog 22 3 1 1).update 1).x =
        (GRID_WIDTH : ℚ) + (mkLog 22 3 1 1).width) :=
  obstacle_update_wrap_invariant (mkLog 22 3 1 1) 1 (Or.inl rfl)
    (by norm_num [mkLog]) (by norm_num [mkLog]) (by norm_num)
    (by norm_num [mkLog]) (by norm_num [mkLog, GRID_WIDTH])

/-- C7: a move command while Playing targets the truncated current
position plus the delta; in bounds and tree-free it snaps x to the
integer target, sets y, and lowers max_row to min(max_row, y) without
a state transition; out of bounds or tree-blocked it is a silent no-op
on the whole game state. -/
theorem move_player_spec (gs : GameState) (dx dy : ℤ)
    (hplay : gs.state = GMode.playing) :
    (0 ≤ pyInt gs.player.x + dx ∧ pyInt gs.player.x + dx < GRID_WIDTH ∧
      0 ≤ gs.player.y + dy ∧ gs.player.y + dy < TOTAL_ROWS ∧
      has_tree_at (pyInt gs.player.x + dx) (gs.player.y + dy)
        gs.obstacle_manager.trees = false →
      (gs.move_player dx dy).state = GMode.playing ∧
      (gs.move_player dx dy).player.x = ((pyInt gs.player.x + dx : ℤ) : ℚ) ∧
      (gs.move_player dx dy).player.y = gs.player.y + dy ∧
      (gs.move_player dx dy).player.max_row =
        min gs.player.max_row (gs.player.y + dy)) ∧
    (¬(0 ≤ pyInt gs.player.x + dx ∧ pyInt gs.player.x + dx < GRID_WIDTH ∧
        0 ≤ gs.player.y + dy ∧ gs.player.y + dy < TOTAL_ROWS) ∨
      has_tree_at (pyInt gs.player.x + dx) (gs.player.y + dy)
        gs.obstacle_manager.trees = true →
      gs.move_player dx dy = gs) := by
  constructor
  · rintro ⟨hb1, hb2, hb3, hb4, htree⟩
    unfold GameState.move_player
    rw [if_pos hplay]
    simp only
    rw [if_pos ⟨hb1, hb2, hb3, hb4⟩, if_pos htree]
    unfold Player.move
    rw [if_pos ⟨hb1, hb2, hb3, hb4⟩]
    refine ⟨hplay, rfl, rfl, ?_⟩
    show (if gs.player.y + dy < gs.player.max_row then gs.player.y + dy
      else gs.player.max_row) = min gs.player.max_row (gs.player.y + dy)
    rw [min_def]
    split_ifs <;> omega
  · intro hrej
    unfold GameState.move_player
    rw [if_pos hplay]
    simp only
    rcases hrej with hnb | htree
    · rw [if_neg hnb]
    · split_ifs with hb htree2
      · rw [htree] at htree2
        exact absurd htree2 (by simp)
      · rfl
      · rfl

/-- Closed instance of the move contract: from the start cell, a move
right succeeds and a move into a tree at the start cell's right
neighbour would be rejected — shown on the tree-free sample state. -/
theorem move_player_spec_witness :
    (0 ≤ pyInt wGS.player.x + 1 ∧ pyInt wGS.player.x + 1 < GRID_WIDTH ∧
      0 ≤ wGS.player.y + 0 ∧ wGS.player.y + 0 < TOTAL_ROWS ∧
      has_tree_at (pyInt wGS.player.x + 1) (wGS.player.y + 0)
        wGS.obstacle_manager.trees = false →
      (wGS.move_player 1 0).state = GMode.playing ∧
      (wGS.move_player 1 0).player.x = ((pyInt wGS.player.x + 1 : ℤ) : ℚ) ∧
      (wGS.move_player 1 0).player.y = wGS.player.y + 0 ∧
      (wGS.move_player 1 0).player.max_row =
        min wGS.player.max_row (wGS.player.y + 0)) ∧
    (¬(0 ≤ pyInt wGS.player.x + 1 ∧ pyInt wGS.player.x + 1 < GRID_WIDTH ∧
        0 ≤ wGS.player.y + 0 ∧ wGS.player.y + 0 < TOTAL_ROWS) ∨
      has_tree_at (pyInt wGS.player.x + 1) (wGS.player.y + 0)
        wGS.obstacle_manager.trees = true →
      wGS.move_player 1 0 = wGS) :=
  move_player_spec wGS 1 0 rfl

theorem game_over_step_scroll_y (gs : GameState) :
    gs.game_over_step.scroll_y = gs.scroll_y := rfl

/-- Every branch of update writes scroll_y := scroll_y - SCROLL_SPEED·dt
and no later branch touches it. -/
theorem update_scroll_y_eq (gs : GameState) (dt : ℚ) (r : RNG)
    (hplay : gs.state = GMode.playing) :
    ((gs.update dt r).1).scroll_y = gs.scroll_y - SCROLL_SPEED * dt := by
  unfold GameState.update
  rw [if_neg (by simp [hplay])]
  simp only
  by_cases h1 : gs.scroll_y - SCROLL_SPEED * dt + (GRID_HEIGHT : ℚ) ≤
    (gs.player.y : ℚ)
  · rw [if_pos h1]
    rfl
  · rw [if_neg h1]
    rcases hterr : get_terrain_at gs.terrain gs.player.y with _ | tt
    · split_ifs <;> first | rfl | (exfalso; simp_all)
    · cases tt
      · split_ifs <;> first | rfl | (exfalso; simp_all)
      · split_ifs <;> first | rfl | (exfalso; simp_all)
      · rcases hlog : get_log_at_position gs.player.x gs.player.y
            (gs.obstacle_manager.update dt r).1.obstacles with _ | lg
        · split_ifs <;> first | rfl | (exfalso; simp_all)
        · dsimp only
          split_ifs <;> first | rfl | (exfalso; simp_all)
      · split_ifs <;> first | rfl | (exfalso; simp_all)

/-- C1 counterexample: the claim that GameState.update never decreases
scroll_y fails at a concrete Playing state: a tick with dt = 1 > 0
strictly lowers scroll_y (from 85 to 84.5). -/
theorem scroll_y_never_decreases_counterexample :
    wGS.state = GMode.playing ∧ (0 : ℚ) < 1 ∧
    ((wGS.update 1 wRNG).1).scroll_y < wGS.scroll_y := by
  refine ⟨rfl, by norm_num, ?_⟩
  rw [update_scroll_y_eq wGS 1 wRNG rfl]
  have hpos : (0 : ℚ) < SCROLL_SPEED * 1 := by norm_num [SCROLL_SPEED]
  linarith

/-- C1 (amended): while Playing, every tick with dt > 0 strictly
DEcreases scroll_y, by exactly SCROLL_SPEED·dt, whatever branch of
update runs — scroll_y is monotonically non-increasing over a session,
not non-decreasing. -/
theorem update_scroll_y_decreases (gs : GameState) (dt : ℚ) (r : RNG)
    (hplay : gs.state = GMode.playing) (hdt : 0 < dt) :
    ((gs.update dt r).1).scroll_y = gs.scroll_y - SCROLL_SPEED * dt ∧
    ((gs.update dt r).1).scroll_y < gs.scroll_y := by
  have heq := update_scroll_y_eq gs dt r hplay
  refine ⟨heq, ?_⟩
  rw [heq]
  have hpos : (0 : ℚ) < SCROLL_SPEED * dt :=
    mul_pos (by norm_num [SCROLL_SPEED]) hdt
  linarith

/-- Closed instance of the amended scroll law at the sample state. -/
theorem update_scroll_y_decreases_witness :
    ((wGS.update 1 wRNG).1).scroll_y = wGS.scroll_y - SCROLL_SPEED * 1 ∧
    ((wGS.update 1 wRNG).1).scroll_y < wGS.scroll_y :=
  update_scroll_y_decreases wGS 1 wRNG rfl (by norm_num)

theorem generate_for_row_train_tracks (om : ObstacleManager) (row_y : ℤ)
    (tt : Terrain) (r : RNG) (h : tt ≠ Terrain.train) :
    ((om.generate_for_row row_y tt r).1).train_tracks =
      om.train_tracks.filter (fun p => !(p.1 == row_y)) := by
  cases tt
  · unfold ObstacleManager.generate_for_row
    simp only
    split_ifs <;> rfl
  · rfl
  · rfl
  · exact absurd rfl h

/-- C2 (code bug): GameState._generate_initial_obstacles only generates
hazards for Road/River/Grass rows, never for Rail rows, so starting
from a cleared ObstacleManager it registers NO TrainTrack at all, for
every terrain list and random source — a terrain containing a Rail
row therefore has no TrainTrack for it (the claim requires exactly
one). -/
theorem initial_generation_creates_no_train_tracks
    (terrain : List TerrainRow) (r : RNG) :
    ((generate_initial_obstacles ObstacleManager.empty terrain
      r).1).train_tracks = [] := by
  unfold generate_initial_obstacles
  suffices h : ∀ (l : List (ℕ × TerrainRow))
      (init : ObstacleManager × RNG), init.1.train_tracks = [] →
      ((l.foldl (fun acc p =>
        if p.2.terrain_type = Terrain.road ∨
            p.2.terrain_type = Terrain.river ∨
            p.2.terrain_type = Terrain.grass then
          acc.1.generate_for_row (p.1 : ℤ) p.2.terrain_type acc.2
        else acc) init).1).train_tracks = [] by
    exact h terrain.enum (ObstacleManager.empty, r) rfl
  intro l
  induction l with
  | nil =>
    intro init h0
    exact h0
  | cons p rest ih =>
    intro init h0
    rw [List.foldl_cons]
    apply ih
    split_ifs with hc
    · rw [generate_for_row_train_tracks]
      · rw [h0]
        rfl
      · rcases hc with h | h | h <;> simp [h]
    · exact h0

/-- A live, overlapping train that check_collision_with_train reports as
a hit: the moved train from railGS covers [8, 33), the player box is
[10, 11). -/
theorem rail_collision_premise_example :
    check_collision_with_train 10 40
      [Obstacle.update (mkTrain 0 40 1) 1] = true := by
  unfold check_collision_with_train Obstacle.update mkTrain
  norm_num [isTrain, TRAIN_SPEED, TRAIN_WIDTH, GRID_WIDTH]

/-- C3 (code bug): GameState.update performs no train-collision check
(check_collision_with_train is never called): while Playing, if the
scroll has not caught the player and the player's row is Rail terrain,
the tick always ends with the state still Playing — even when
check_collision_with_train reports that a Train's footprint strictly
overlaps the player (hypothesis hcol; rail_collision_premise_example
shows it is satisfiable), where the claim requires GameOver. -/
theorem update_ignores_train_collision (gs : GameState) (dt : ℚ) (r : RNG)
    (hplay : gs.state = GMode.playing)
    (hscroll : ¬ (gs.scroll_y - SCROLL_SPEED * dt + (GRID_HEIGHT : ℚ) ≤
      (gs.player.y : ℚ)))
    (hterr : get_terrain_at gs.terrain gs.player.y = some Terrain.train)
    (hcol : check_collision_with_train gs.player.x gs.player.y
      ((gs.obstacle_manager.update dt r).1).obstacles = true) :
    ((gs.update dt r).1).state = GMode.playing := by
  unfold GameState.update
  rw [if_neg (by simp [hplay])]
  simp only
  rw [if_neg hscroll, hterr]
  rw [if_neg (by simp), if_neg (by simp)]
  exact hplay

/-- Closed instance of the dead train-collision check: the concrete
Rail-row state railGS, with the moved train overlapping the player,
still ends its tick Playing. -/
theorem update_ignores_train_collision_witness :
    ((railGS.update 1 wRNG).1).state = GMode.playing :=
  update_ignores_train_collision railGS 1 wRNG rfl
    (by norm_num [railGS, SCROLL_SPEED, GRID_HEIGHT])
    (by decide)
    (by norm_num [railGS, ObstacleManager.update, Obstacle.update,
      check_collision_with_train, isTrain, mkTrain, TRAIN_SPEED,
      TRAIN_WIDTH, GRID_WIDTH])

/-- C9: restart from GameOver yields a Playing state with the player
back on the start cell (max_row = PLAYER_START_Y, score 0), the scroll
reinitialized, and the obstacle manager rebuilt from the CLEARED
(empty) manager over freshly generated terrain — independent of every
previously live hazard, tree and train track. -/
theorem restart_resets (gs : GameState) (r : RNG)
    (hgo : gs.state = GMode.game_over) :
    ((gs.restart r).1).state = GMode.playing ∧
    ((gs.restart r).1).player = Player.init ∧
    ((gs.restart r).1).player.max_row = PLAYER_START_Y ∧
    ((gs.restart r).1).player.get_score = 0 ∧
    ((gs.restart r).1).scroll_y =
      ((PLAYER_START_Y - GRID_HEIGHT + 3 : ℤ) : ℚ) ∧
    ((gs.restart r).1).terrain = (generate_terrain r).1 ∧
    ((gs.restart r).1).obstacle_manager =
      (generate_initial_obstacles ObstacleManager.empty
        (generate_terrain r).1 (generate_terrain r).2).1 := by
  unfold GameState.restart GameState.start_game Player.reset
  obtain ⟨terr, r1, ht⟩ : ∃ t u, generate_terrain r = (t, u) := ⟨_, _, rfl⟩
  simp only [ht]
  refine ⟨by trivial, by trivial, by trivial,
    by simp [Player.get_score, Player.init], by trivial, by trivial,
    by trivial⟩

/-- Closed instance of the restart contract at a GameOver state holding
stale hazards, trees and a train track. -/
theorem restart_resets_witness :
    ((overGS.restart wRNG).1).state = GMode.playing ∧
    ((overGS.restart wRNG).1).player = Player.init ∧
    ((overGS.restart wRNG).1).player.max_row = PLAYER_START_Y ∧
    ((overGS.restart wRNG).1).player.get_score = 0 ∧
    ((overGS.restart wRNG).1).scroll_y =
      ((PLAYER_START_Y - GRID_HEIGHT + 3 : ℤ) : ℚ) ∧
    ((overGS.restart wRNG).1).terrain = (generate_terrain wRNG).1 ∧
    ((overGS.restart wRNG).1).obstacle_manager =
      (generate_initial_obstacles ObstacleManager.empty
        (generate_terrain wRNG).1 (generate_terrain wRNG).2).1 :=
  restart_resets overGS wRNG rfl

end Crossy
